import Mathlib

/-!
Shallow embedding of the scanner in `app/app.py` (ABAP scanner for SAP
Note 2198647).  Text is modelled as `List Char`; the three regular
expressions of the source are embedded as explicit matching functions with
the semantics of Python `re` (leftmost, non-overlapping `finditer`, lazy
and greedy quantifiers resolved exactly as the backtracking engine does).
Only the ASCII fragment of `\w`, `\s`, `str.upper` and `re.IGNORECASE` is
modelled; every identifier in the pattern catalog is ASCII.
-/

namespace App

/-- ASCII fragment of the regex class `\w` (also of `[A-Z0-9_]` under
`re.IGNORECASE`). -/
def isWordChar (c : Char) : Bool := c.isAlphanum || c == '_'

/-- ASCII fragment of the regex class `\s`. -/
def isSpaceChar (c : Char) : Bool :=
  c == ' ' || c == '\t' || c == '\n' || c == '\r' || c.toNat == 11 || c.toNat == 12

/-- Case-insensitive character comparison (ASCII, `re.IGNORECASE`). -/
def ciEq (a b : Char) : Bool := a.toLower == b.toLower

/-- Does `pat` occur case-insensitively at the head of `s`? -/
def startsCI : List Char → List Char → Bool
  | [], _ => true
  | _ :: _, [] => false
  | p :: ps, c :: cs => ciEq p c && startsCI ps cs

/-- Does `pat` occur case-insensitively at offset `i` of `s`? -/
def atCI (s : List Char) (i : Nat) (pat : List Char) : Bool := startsCI pat (s.drop i)

/-- Is the character at offset `i` (if any) a word character? -/
def wordAt (s : List Char) (i : Nat) : Bool := i < s.length && isWordChar (s.getD i ' ')

/-- The regex word boundary `\b` at offset `i` of `s`. -/
def boundary (s : List Char) (i : Nat) : Bool :=
  ((0 < i : Bool) && wordAt s (i - 1)) != wordAt s i

/-- `\b pat \b` (case-insensitive) matches at offset `i` of `s`. -/
def kwAt (s : List Char) (i : Nat) (pat : List Char) : Bool :=
  boundary s i && atCI s i pat && boundary s (i + pat.length)

/-- Length of the maximal run of characters satisfying `p` at the head. -/
def takeWhileLen (p : Char → Bool) : List Char → Nat
  | [] => 0
  | c :: cs => if p c then takeWhileLen p cs + 1 else 0

/-- Length of the maximal run of characters satisfying `p` from offset `i`. -/
def runLen (p : Char → Bool) (s : List Char) (i : Nat) : Nat := takeWhileLen p (s.drop i)

/-- The Python slice `s[a:b]` as a character list. -/
def slice (s : List Char) (a b : Nat) : List Char := (s.drop a).take (b - a)

/-- Smallest `j` with `i ≤ j ≤ i + fuel` and `p j`; this is the bump-along
scan with which `re` looks for the next match start (and with which a lazy
quantifier grows its extent). -/
def firstIdx (p : Nat → Bool) : Nat → Nat → Option Nat
  | i, 0 => if p i then some i else none
  | i, fuel + 1 => if p i then some i else firstIdx p (i + 1) fuel

/-- Python `$` (without `re.MULTILINE`): end of text, or just before a
final newline. -/
def dollarAt (s : List Char) (i : Nat) : Bool :=
  i == s.length || (i + 1 == s.length && s.getD i ' ' == '\n')

/-- Python `str.upper` (ASCII fragment) of a character list, as a `String`. -/
def upper (l : List Char) : String := String.mk (l.map Char.toUpper)

/-- One match of `SQL_SELECT_BLOCK_RE` (app.py lines 15-18):
`\bSELECT\b(?P<select>.+?)\bFROM\b\s+(?P<table>\w+)(?P<rest>.*?)(?=(\bSELECT\b|$))`
compiled with `re.IGNORECASE | re.DOTALL`.  `start` is the match start,
the `table` group spans `[tableStart, tableEnd)`, and the `rest` group
spans `[tableEnd, matchEnd)`. -/
structure SelectBlock where
  start : Nat
  tableStart : Nat
  tableEnd : Nat
  matchEnd : Nat
deriving DecidableEq

/-- `\bFROM\b\s+(?P<table>\w+)` matches at offset `q`; returns the span of
the `table` group.  `\s+` and `\w+` are greedy and nothing behind them can
force backtracking (the continuation `.*?(?=(\bSELECT\b|$))` always
matches), so both take their maximal runs, and `\s+` needs a nonempty run. -/
def fromTableAt (s : List Char) (q : Nat) : Option (Nat × Nat) :=
  if kwAt s q ("FROM".data) then
    let ts := q + 4 + runLen isSpaceChar s (q + 4)
    let tl := runLen isWordChar s ts
    if q + 4 < ts && 0 < tl then some (ts, ts + tl) else none
  else none

/-- `SQL_SELECT_BLOCK_RE` matches anchored at offset `p`.  The lazy `.+?`
takes the smallest nonempty extent whose continuation matches, i.e. the
smallest `q ≥ p + 7` at which `\bFROM\b\s+\w+` matches; the lazy `.*?`
stops at the first offset at which the lookahead `(\bSELECT\b|$)` holds
(such an offset always exists because `$` holds at the end of text). -/
def matchBlockAt (s : List Char) (p : Nat) : Option SelectBlock :=
  if kwAt s p ("SELECT".data) then
    match firstIdx (fun q => (fromTableAt s q).isSome) (p + 7) s.length with
    | some q =>
      match fromTableAt s q with
      | some (ts, te) =>
        match firstIdx (fun r => kwAt s r ("SELECT".data) || dollarAt s r) te s.length with
        | some r => some ⟨p, ts, te, r⟩
        | none => none
      | none => none
    | none => none
  else none

/-- `SQL_SELECT_BLOCK_RE.finditer` from offset `pos`: leftmost match
first, then resume at its end (every match is nonempty, so the scan
advances). -/
def findBlocksFrom (s : List Char) : Nat → Nat → List SelectBlock
  | _, 0 => []
  | pos, fuel + 1 =>
    match firstIdx (fun p => (matchBlockAt s p).isSome) pos s.length with
    | some p =>
      match matchBlockAt s p with
      | some b => b :: findBlocksFrom s b.matchEnd fuel
      | none => []
    | none => []

/-- All matches of `SQL_SELECT_BLOCK_RE` over `s`, left to right. -/
def findBlocks (s : List Char) : List SelectBlock := findBlocksFrom s 0 (s.length + 1)

/-- Does `\bFROM\b\s+\w+` match at some offset `q ≥ i` of `s`?  The search
bound `s.length` is exhaustive: beyond the end of the text `fromTableAt`
never matches.  This is the spec-side test for a SELECT fragment having a
reachable `FROM` after it. -/
def hasFromTable (s : List Char) (i : Nat) : Bool :=
  (List.range (s.length + 1)).any (fun q => i ≤ q && (fromTableAt s q).isSome)

/-- `JOIN_RE = \bJOIN\s+(?P<table>\w+)` (app.py line 19, `re.IGNORECASE`)
matches anchored at offset `i` of `t`; returns the span of the `table`
group (the whole match spans `[i, tableEnd)`). -/
def joinMatchAt (t : List Char) (i : Nat) : Option (Nat × Nat) :=
  if boundary t i && atCI t i ("JOIN".data) then
    let sp := runLen isSpaceChar t (i + 4)
    let tl := runLen isWordChar t (i + 4 + sp)
    if 0 < sp && 0 < tl then some (i + 4 + sp, i + 4 + sp + tl) else none
  else none

/-- `JOIN_RE.finditer` from offset `pos`: `(matchStart, tableStart, tableEnd)`. -/
def findJoinsFrom (t : List Char) : Nat → Nat → List (Nat × Nat × Nat)
  | _, 0 => []
  | pos, fuel + 1 =>
    match firstIdx (fun i => (joinMatchAt t i).isSome) pos t.length with
    | some i =>
      match joinMatchAt t i with
      | some (ts, te) => (i, ts, te) :: findJoinsFrom t te fuel
      | none => []
    | none => []

/-- All matches of `JOIN_RE` over `t`, left to right. -/
def findJoins (t : List Char) : List (Nat × Nat × Nat) := findJoinsFrom t 0 (t.length + 1)

/-- `DECLARATION_RE = \b(?:TYPE|LIKE)\b\s+(?P<field>[A-Z0-9_]+)` (app.py
lines 21-23, `re.IGNORECASE`) matches anchored at offset `i`; returns the
span of the `field` group. -/
def declMatchAt (t : List Char) (i : Nat) : Option (Nat × Nat) :=
  if kwAt t i ("TYPE".data) || kwAt t i ("LIKE".data) then
    let sp := runLen isSpaceChar t (i + 4)
    let fl := runLen isWordChar t (i + 4 + sp)
    if 0 < sp && 0 < fl then some (i + 4 + sp, i + 4 + sp + fl) else none
  else none

/-- `DECLARATION_RE.finditer` from offset `pos`:
`(matchStart, fieldStart, fieldEnd)`. -/
def findDeclsFrom (t : List Char) : Nat → Nat → List (Nat × Nat × Nat)
  | _, 0 => []
  | pos, fuel + 1 =>
    match firstIdx (fun i => (declMatchAt t i).isSome) pos t.length with
    | some i =>
      match declMatchAt t i with
      | some (fs, fe) => (i, fs, fe) :: findDeclsFrom t fe fuel
      | none => []
    | none => []

/-- All matches of `DECLARATION_RE` over `t`, left to right. -/
def findDecls (t : List Char) : List (Nat × Nat × Nat) := findDeclsFrom t 0 (t.length + 1)

/-- `re.search(r"\bVBTYP_EXT\b", t, re.IGNORECASE)` succeeds somewhere in
`t` (app.py line 82). -/
def containsVBTYP_EXT (t : List Char) : Bool :=
  (List.range (t.length + 1)).any (fun i => kwAt t i ("VBTYP_EXT".data))

/-- `SQL_TABLES = {"VBUK": "VBAK", "VBUP": "VBAP"}` — tables to check
(app.py line 9). -/
def SQL_TABLES : List (String × String) := [("VBUK", "VBAK"), ("VBUP", "VBAP")]

/-- `SQL_FIELDS = {"VBTYP_EXT"}` — SQL-only field (app.py line 10; the
scanner itself hard-codes the token in its search pattern). -/
def SQL_FIELDS : List String := ["VBTYP_EXT"]

/-- `DECL_FIELDS = {"VBTYP": "VBTYPL"}` — declaration changed element
(app.py line 11). -/
def DECL_FIELDS : List (String × String) := [("VBTYP", "VBTYPL")]

/-- `DECL_FIELDS_OBS = {"VBTYP_EXT"}` — declaration obsolete field
(app.py line 12). -/
def DECL_FIELDS_OBS : List String := ["VBTYP_EXT"]

/-- Input record (`class Unit(BaseModel)`, app.py lines 25-30). -/
structure Unit where
  pgm_name : String
  inc_name : String
  type : String
  name : Option String := none
  code : Option String := some ""
deriving DecidableEq

/-- A raw hit dict as produced by `scan_sql` / `scan_declarations`.
`suggested_statement = none` models the `KeyError` that `comment_table`
raises when its argument is not a key of `SQL_TABLES`. -/
structure RawHit where
  target_type : String
  target_name : String
  field : Option String
  span : Nat × Nat
  used_fields : List String
  suggested_fields : Option (List String)
  suggested_statement : Option String
deriving DecidableEq

/-- Output finding (the dict built inside `assess`, app.py lines 124-135). -/
structure Finding where
  table : Option String
  field : Option String
  target_type : String
  target_name : String
  start_char_in_unit : Nat
  end_char_in_unit : Nat
  used_fields : List String
  ambiguous : Bool
  suggested_fields : Option (List String)
  suggested_statement : Option String
deriving DecidableEq

/-- `comment_table` (app.py lines 33-34).  The dict access
`SQL_TABLES[tbl]` raises `KeyError` on a non-key, modelled by `none`. -/
def comment_table (tbl : String) : Option String :=
  (SQL_TABLES.lookup tbl).map (fun rep =>
    "* TODO: Table " ++ upper tbl.data
      ++ " obsolete in S/4HANA (Note 2198647). Replace with " ++ rep ++ ".")

/-- `comment_decl_field` (app.py lines 36-42). -/
def comment_decl_field (field : String) : String :=
  let f := upper field.data
  if DECL_FIELDS_OBS.contains f then
    "* TODO: Field " ++ f ++ " obsolete (Note 2198647). Remove usage."
  else
    match DECL_FIELDS.lookup f with
    | some rep =>
      "* TODO: Data element " ++ f ++ " was lengthened (Note 2198647). Use " ++ rep ++ "."
    | none => ""

/-- `comment_sql_field` (app.py lines 44-45). -/
def comment_sql_field (f : String) : String :=
  "* TODO: Field " ++ f ++ " obsolete (Note 2198647). Remove usage."

/-- The main `FROM`-table check of `scan_sql` for one block (app.py lines
55-65). -/
def mainTableHits (s : List Char) (b : SelectBlock) : List RawHit :=
  let table := upper (slice s b.tableStart b.tableEnd)
  match SQL_TABLES.lookup table with
  | some rep =>
    [{ target_type := "TABLE", target_name := table, field := none,
       span := (b.start, b.matchEnd), used_fields := [table],
       suggested_fields := some [rep], suggested_statement := comment_table table }]
  | none => []

/-- The `JOIN`-table checks of `scan_sql` for one block (app.py lines
67-79).  The spans are exactly what `JOIN_RE.finditer(rest_text)` yields:
offsets into the `rest` group, not into the unit text. -/
def joinTableHits (s : List Char) (b : SelectBlock) : List RawHit :=
  let rest := slice s b.tableEnd b.matchEnd
  (findJoins rest).flatMap (fun jm =>
    let jtable := upper (slice rest jm.2.1 jm.2.2)
    match SQL_TABLES.lookup jtable with
    | some rep =>
      [{ target_type := "TABLE", target_name := jtable, field := none,
         span := (jm.1, jm.2.2), used_fields := [jtable],
         suggested_fields := some [rep], suggested_statement := comment_table jtable }]
    | none => [])

/-- The once-per-block `VBTYP_EXT` check of `scan_sql` (app.py lines
81-91), on the whole match text `stmt.group(0)`. -/
def sqlFieldHits (s : List Char) (b : SelectBlock) : List RawHit :=
  if containsVBTYP_EXT (slice s b.start b.matchEnd) then
    [{ target_type := "SQL_FIELD", target_name := "VBTYP_EXT", field := some ("VBTYP_EXT"),
       span := (b.start, b.matchEnd), used_fields := ["VBTYP_EXT"],
       suggested_fields := none,
       suggested_statement := some (comment_sql_field ("VBTYP_EXT")) }]
  else []

/-- All hits `scan_sql` appends while processing one block, in append
order: main table, then joins, then the SQL field. -/
def blockHits (s : List Char) (b : SelectBlock) : List RawHit :=
  mainTableHits s b ++ joinTableHits s b ++ sqlFieldHits s b

/-- `scan_sql` (app.py lines 48-92). -/
def scan_sql (code : String) : List RawHit :=
  (findBlocks code.data).flatMap (fun b => blockHits code.data b)

/-- `scan_declarations` (app.py lines 95-109). -/
def scan_declarations (code : String) : List RawHit :=
  (findDecls code.data).flatMap (fun m =>
    let fld := upper (slice code.data m.2.1 m.2.2)
    if (DECL_FIELDS.lookup fld).isSome || DECL_FIELDS_OBS.contains fld then
      [{ target_type := "DECLARATION", target_name := fld, field := some fld,
         span := (m.1, m.2.2), used_fields := [fld],
         suggested_fields :=
           (match DECL_FIELDS.lookup fld with
            | some rep => some [rep]
            | none => none),
         suggested_statement := some (comment_decl_field fld) }]
    else [])

/-- The finding dict built from a surviving raw hit (app.py lines 124-135). -/
def toFinding (hit : RawHit) : Finding :=
  { table := if hit.target_type == "TABLE" then some hit.target_name else none,
    field := hit.field,
    target_type := hit.target_type,
    target_name := hit.target_name,
    start_char_in_unit := hit.span.1,
    end_char_in_unit := hit.span.2,
    used_fields := hit.used_fields,
    ambiguous := false,
    suggested_fields := hit.suggested_fields,
    suggested_statement := hit.suggested_statement }

/-- The dedup key `(hit["target_type"], hit["target_name"], hit["span"])`
(app.py line 120). -/
def keyOf (hit : RawHit) : String × String × Nat × Nat :=
  (hit.target_type, hit.target_name, hit.span.1, hit.span.2)

/-- The `seen`-set loop of `assess` (app.py lines 117-135). -/
def dedupLoop : List RawHit → List (String × String × Nat × Nat) → List Finding
  | [], _ => []
  | h :: t, seen =>
    if keyOf h ∈ seen then dedupLoop t seen
    else toFinding h :: dedupLoop t (keyOf h :: seen)

/-- The finding list `assess` computes for one unit (app.py lines 116-135). -/
def assessUnit (u : Unit) : List Finding :=
  let src := u.code.getD ""
  dedupLoop (scan_sql src ++ scan_declarations src) []

/-- One output record of `assess`: the unit's own fields plus `"selects"`
(app.py lines 136-137). -/
structure AssessedUnit where
  unit : Unit
  selects : List Finding
deriving DecidableEq

/-- `assess` (app.py lines 112-138): one output record per input unit, in
input order. -/
def assess (units : List Unit) : List AssessedUnit :=
  units.map (fun u => { unit := u, selects := assessUnit u })

/-- Spec formulation of the deduplication (spec section 4.5), stated
independently of the `seen`-set loop: the first occurrence of each
composite key is kept, every later hit whose key equals the key of an
earlier hit is dropped, and no other reordering happens. -/
def keepFirstOccurrences : List RawHit → List RawHit
  | [] => []
  | h :: t => h :: keepFirstOccurrences (t.filter (fun h2 => decide (keyOf h2 ≠ keyOf h)))
termination_by l => l.length
decreasing_by
  simp only [List.length_cons]
  exact Nat.lt_succ_of_le (List.length_filter_le _ _)

/-- Concrete input unit used by witness theorems: source `SELECT * FROM VBUK`. -/
def exampleUnitVBUK : Unit :=
  { pgm_name := "P1", inc_name := "I1", type := "FORM", name := none,
    code := some ("SELECT * FROM VBUK") }

/-- The single finding the scanner produces for `exampleUnitVBUK`. -/
def exampleFindingVBUK : Finding :=
  { table := some ("VBUK"), field := none, target_type := "TABLE",
    target_name := "VBUK", start_char_in_unit := 0, end_char_in_unit := 18,
    used_fields := ["VBUK"], ambiguous := false,
    suggested_fields := some ["VBAK"],
    suggested_statement :=
      some ("* TODO: Table VBUK obsolete in S/4HANA (Note 2198647). Replace with VBAK.") }

/-- The output record of `assess` for `exampleUnitVBUK`. -/
def exampleRecordVBUK : AssessedUnit :=
  { unit := exampleUnitVBUK, selects := [exampleFindingVBUK] }

/-- Concrete input unit used by witness theorems: source `SELECT * FROM VBUP`. -/
def exampleUnitVBUP : Unit :=
  { pgm_name := "P2", inc_name := "I2", type := "FORM", name := none,
    code := some ("SELECT * FROM VBUP") }

/-- The single finding the scanner produces for `exampleUnitVBUP`. -/
def exampleFindingVBUP : Finding :=
  { table := some ("VBUP"), field := none, target_type := "TABLE",
    target_name := "VBUP", start_char_in_unit := 0, end_char_in_unit := 18,
    used_fields := ["VBUP"], ambiguous := false,
    suggested_fields := some ["VBAP"],
    suggested_statement :=
      some ("* TODO: Table VBUP obsolete in S/4HANA (Note 2198647). Replace with VBAP.") }

/-- The output record of `assess` for `exampleUnitVBUP`. -/
def exampleRecordVBUP : AssessedUnit :=
  { unit := exampleUnitVBUP, selects := [exampleFindingVBUP] }

end App

namespace App

/-- C2: the claim says a `JOIN` hit's span is measured from the start of
the unit's source text.  The code passes `rest_text` (the block's trailing
region) to `JOIN_RE.finditer` and stores `jm.span()` unchanged, so the
span is measured from the start of the trailing region instead: on
`"SELECT a FROM x JOIN VBUK ON c."` the emitted span is `(1, 10)`, while
the `JOIN` clause occupies `[16, 25)` of the unit text (which is where the
spec's own span definition, section 3, puts it). -/
theorem join_span_rest_relative :
    (scan_sql ("SELECT a FROM x JOIN VBUK ON c.")).map (fun hit => hit.span) = [(1, 10)] ∧
    slice (("SELECT a FROM x JOIN VBUK ON c.").data) 16 25 = ("JOIN VBUK").data ∧
    slice (("SELECT a FROM x JOIN VBUK ON c.").data) 1 10 = ("ELECT a F").data := by
  refine ⟨?_, ?_, ?_⟩ <;> decide

/-- C3 (counterexample): on `"SELECT a. SELECT b FROM VBUK."` the claim
predicts a block starting at the second `SELECT` (offset 10) only.  In
fact the lazy `.+?` of the select group extends across the second `SELECT`
keyword to reach the `FROM`, so the single block starts at offset 0. -/
theorem select_block_start_counterexample :
    (findBlocks (("SELECT a. SELECT b FROM VBUK.").data)).map (fun b => b.start) = [0] ∧
    (scan_sql ("SELECT a. SELECT b FROM VBUK.")).map (fun hit => hit.span) = [(0, 29)] := by
  refine ⟨?_, ?_⟩ <;> decide

/-- C5: `DATA x TYPE VBTYP.` yields a `DECLARATION` finding for `VBTYP`
with suggested replacement `[VBTYPL]` and a comment naming the lengthened
replacement; `DATA y TYPE VBTYP_EXT.` yields a `DECLARATION` finding for
`VBTYP_EXT` with no suggested replacement and a remove-usage comment. -/
theorem decl_renamed_vs_removed :
    assessUnit { pgm_name := "P", inc_name := "I", type := "FORM", name := none,
                 code := some ("DATA x TYPE VBTYP.") } =
      [{ table := none, field := some ("VBTYP"), target_type := "DECLARATION",
         target_name := "VBTYP", start_char_in_unit := 7, end_char_in_unit := 17,
         used_fields := ["VBTYP"], ambiguous := false,
         suggested_fields := some ["VBTYPL"],
         suggested_statement :=
           some ("* TODO: Data element VBTYP was lengthened (Note 2198647). Use VBTYPL.") }] ∧
    assessUnit { pgm_name := "P", inc_name := "I", type := "FORM", name := none,
                 code := some ("DATA y TYPE VBTYP_EXT.") } =
      [{ table := none, field := some ("VBTYP_EXT"), target_type := "DECLARATION",
         target_name := "VBTYP_EXT", start_char_in_unit := 7, end_char_in_unit := 21,
         used_fields := ["VBTYP_EXT"], ambiguous := false,
         suggested_fields := none,
         suggested_statement :=
           some ("* TODO: Field VBTYP_EXT obsolete (Note 2198647). Remove usage.") }] := by
  refine ⟨?_, ?_⟩ <;> decide

/-- C1: for every key `t` of the obsolete-tables catalog, a unit whose
source is exactly `SELECT * FROM t` yields exactly one finding: a `TABLE`
finding with `target_name = t`, no `field`, and suggested replacement list
`[catalog value of t]`. -/
theorem catalog_completeness (t rep : String) (h : (t, rep) ∈ SQL_TABLES) :
    ∃ f : Finding,
      assessUnit { pgm_name := "P", inc_name := "I", type := "FORM", name := none,
                   code := some ("SELECT * FROM " ++ t) } = [f] ∧
      f.target_type = "TABLE" ∧ f.target_name = t ∧ f.field = none ∧
      f.suggested_fields = some [rep] := by
  simp only [SQL_TABLES, List.mem_cons, List.not_mem_nil, or_false, Prod.mk.injEq] at h
  rcases h with ⟨rfl, rfl⟩ | ⟨rfl, rfl⟩
  · exact ⟨{ table := some ("VBUK"), field := none, target_type := "TABLE",
             target_name := "VBUK", start_char_in_unit := 0, end_char_in_unit := 18,
             used_fields := ["VBUK"], ambiguous := false,
             suggested_fields := some ["VBAK"],
             suggested_statement :=
               some ("* TODO: Table VBUK obsolete in S/4HANA (Note 2198647). Replace with VBAK.") },
           by decide, rfl, rfl, rfl, rfl⟩
  · exact ⟨{ table := some ("VBUP"), field := none, target_type := "TABLE",
             target_name := "VBUP", start_char_in_unit := 0, end_char_in_unit := 18,
             used_fields := ["VBUP"], ambiguous := false,
             suggested_fields := some ["VBAP"],
             suggested_statement :=
               some ("* TODO: Table VBUP obsolete in S/4HANA (Note 2198647). Replace with VBAP.") },
           by decide, rfl, rfl, rfl, rfl⟩

/-- Witness for C1 at the catalog entry `("VBUK", "VBAK")`. -/
theorem catalog_completeness_witness :
    (("VBUK", "VBAK") ∈ SQL_TABLES) ∧
    (∃ f : Finding,
      assessUnit { pgm_name := "P", inc_name := "I", type := "FORM", name := none,
                   code := some ("SELECT * FROM " ++ "VBUK") } = [f] ∧
      f.target_type = "TABLE" ∧ f.target_name = "VBUK" ∧ f.field = none ∧
      f.suggested_fields = some ["VBAK"]) :=
  ⟨by decide, catalog_completeness ("VBUK") ("VBAK") (by decide)⟩

/-- A successful bump-along search returns an offset at or after its start
offset, satisfying the predicate. -/
theorem firstIdx_le_and_pred {p : Nat → Bool} :
    ∀ {fuel i j : Nat}, firstIdx p i fuel = some j → i ≤ j ∧ p j = true := by
  intro fuel
  induction fuel with
  | zero =>
    intro i j h
    simp only [firstIdx] at h
    split at h
    · rename_i hp
      cases h
      exact ⟨Nat.le_refl _, hp⟩
    · exact Option.noConfusion h
  | succ n ih =>
    intro i j h
    simp only [firstIdx] at h
    split at h
    · rename_i hp
      cases h
      exact ⟨Nat.le_refl _, hp⟩
    · have h2 := ih h
      exact ⟨Nat.le_trans (Nat.le_succ i) h2.1, h2.2⟩

/-- A `FROM <table>` match puts the table group strictly after `FROM` and
gives it a nonempty span. -/
theorem fromTableAt_bounds {s : List Char} {q ts te : Nat}
    (h : fromTableAt s q = some (ts, te)) : q + 4 < ts ∧ ts < te := by
  simp only [fromTableAt] at h
  split at h
  · split at h
    · rename_i hcond
      simp only [Bool.and_eq_true, decide_eq_true_eq] at hcond
      cases h
      exact ⟨hcond.1, by omega⟩
    · exact Option.noConfusion h
  · exact Option.noConfusion h

/-- An anchored block match starts at its anchor and is nonempty. -/
theorem matchBlockAt_bounds {s : List Char} {p : Nat} {b : SelectBlock}
    (h : matchBlockAt s p = some b) : b.start = p ∧ p < b.matchEnd := by
  simp only [matchBlockAt] at h
  by_cases hsel : kwAt s p (("SELECT").data) = true
  case neg =>
    rw [if_neg hsel] at h
    exact Option.noConfusion h
  rw [if_pos hsel] at h
  cases hq : firstIdx (fun q => (fromTableAt s q).isSome) (p + 7) s.length with
  | none =>
    rw [hq] at h
    exact Option.noConfusion h
  | some q =>
    rw [hq] at h
    dsimp only at h
    cases hts : fromTableAt s q with
    | none =>
      rw [hts] at h
      exact Option.noConfusion h
    | some tste =>
      obtain ⟨ts, te⟩ := tste
      rw [hts] at h
      dsimp only at h
      cases hr : firstIdx (fun r => kwAt s r (("SELECT").data) || dollarAt s r) te s.length with
      | none =>
        rw [hr] at h
        exact Option.noConfusion h
      | some r =>
        rw [hr] at h
        dsimp only at h
        have h1 := firstIdx_le_and_pred hq
        have h2 := fromTableAt_bounds hts
        have h3 := firstIdx_le_and_pred hr
        cases h
        refine ⟨rfl, ?_⟩
        show p < r
        omega

/-- Every block found while scanning from `pos` starts at or after `pos`
and is nonempty. -/
theorem findBlocksFrom_mem_bounds (s : List Char) :
    ∀ (fuel pos : Nat) (b : SelectBlock), b ∈ findBlocksFrom s pos fuel →
      pos ≤ b.start ∧ b.start < b.matchEnd := by
  intro fuel
  induction fuel with
  | zero =>
    intro pos b h
    simp only [findBlocksFrom] at h
    exact absurd h (List.not_mem_nil _)
  | succ n ih =>
    intro pos b h
    simp only [findBlocksFrom] at h
    cases hp : firstIdx (fun p => (matchBlockAt s p).isSome) pos s.length with
    | none =>
      rw [hp] at h
      exact absurd h (List.not_mem_nil _)
    | some p =>
      rw [hp] at h
      dsimp only at h
      cases hblk : matchBlockAt s p with
      | none =>
        rw [hblk] at h
        exact absurd h (List.not_mem_nil _)
      | some blk =>
        rw [hblk] at h
        dsimp only at h
        rcases List.mem_cons.mp h with rfl | hmem
        · have h1 := firstIdx_le_and_pred hp
          have h2 := matchBlockAt_bounds hblk
          exact ⟨by omega, by omega⟩
        · have h1 := firstIdx_le_and_pred hp
          have h2 := matchBlockAt_bounds hblk
          have h3 := ih blk.matchEnd b hmem
          exact ⟨by omega, h3.2⟩

/-- The block scan resumes at the end of each match, so the blocks it
returns are pairwise non-overlapping, in text order. -/
theorem findBlocksFrom_pairwise (s : List Char) :
    ∀ (fuel pos : Nat),
      (findBlocksFrom s pos fuel).Pairwise (fun a b => a.matchEnd ≤ b.start) := by
  intro fuel
  induction fuel with
  | zero =>
    intro pos
    simp [findBlocksFrom]
  | succ n ih =>
    intro pos
    simp only [findBlocksFrom]
    cases hp : firstIdx (fun p => (matchBlockAt s p).isSome) pos s.length with
    | none => exact List.Pairwise.nil
    | some p =>
      dsimp only
      cases hblk : matchBlockAt s p with
      | none => exact List.Pairwise.nil
      | some blk =>
        refine List.Pairwise.cons ?_ (ih blk.matchEnd)
        intro b hb
        exact (findBlocksFrom_mem_bounds s n blk.matchEnd b hb).1

/-- Beyond the end of the text, `\bFROM\b\s+\w+` never matches. -/
theorem fromTableAt_none_of_ge {s : List Char} {q : Nat} (hq : s.length ≤ q) :
    fromTableAt s q = none := by
  have hdrop : s.drop q = [] := List.drop_eq_nil_of_le hq
  have h2 : startsCI (("FROM").data) ([] : List Char) = false := rfl
  have h1 : kwAt s q (("FROM").data) = false := by
    simp [kwAt, atCI, hdrop, h2]
  simp [fromTableAt, h1]

/-- A bump-along search over an everywhere-false predicate fails. -/
theorem firstIdx_none {p : Nat → Bool} :
    ∀ (fuel i : Nat), (∀ j, i ≤ j → p j = false) → firstIdx p i fuel = none := by
  intro fuel
  induction fuel with
  | zero =>
    intro i h
    simp [firstIdx, h i (Nat.le_refl i)]
  | succ n ih =>
    intro i h
    simp only [firstIdx, h i (Nat.le_refl i), if_false]
    exact ih (i + 1) (fun j hj => h j (Nat.le_trans (Nat.le_succ i) hj))

/-- If the bounded search finds no `FROM <table>` at or after `i`, then no
offset `q ≥ i` at all carries one. -/
theorem hasFromTable_false_from {s : List Char} {i : Nat}
    (h : hasFromTable s i = false) :
    ∀ q : Nat, i ≤ q → fromTableAt s q = none := by
  intro q hq
  by_cases hl : q ≤ s.length
  · have hmem : q ∈ List.range (s.length + 1) := List.mem_range.mpr (by omega)
    have h2 := (List.any_eq_false.mp h) q hmem
    rw [← Option.not_isSome_iff_eq_none]
    intro hsome
    exact h2 (by simp [hq, hsome])
  · exact fromTableAt_none_of_ge (by omega)

/-- A SELECT keyword with no reachable `FROM <table>` after its projection
list matches no block. -/
theorem matchBlockAt_none_of_no_from {s : List Char} {p : Nat}
    (h : ∀ q : Nat, p + 7 ≤ q → fromTableAt s q = none) :
    matchBlockAt s p = none := by
  simp only [matchBlockAt]
  by_cases hsel : kwAt s p (("SELECT").data) = true
  · rw [if_pos hsel]
    rw [firstIdx_none s.length (p + 7) (fun j hj => by rw [h j hj]; rfl)]
  · rw [if_neg hsel]

/-- Every block the scan returns is the block matched at its own start
offset. -/
theorem findBlocksFrom_mem_match (s : List Char) :
    ∀ (fuel pos : Nat) (b : SelectBlock), b ∈ findBlocksFrom s pos fuel →
      matchBlockAt s b.start = some b := by
  intro fuel
  induction fuel with
  | zero =>
    intro pos b h
    simp only [findBlocksFrom] at h
    exact absurd h (List.not_mem_nil _)
  | succ n ih =>
    intro pos b h
    simp only [findBlocksFrom] at h
    cases hp : firstIdx (fun p => (matchBlockAt s p).isSome) pos s.length with
    | none =>
      rw [hp] at h
      exact absurd h (List.not_mem_nil _)
    | some p =>
      rw [hp] at h
      dsimp only at h
      cases hblk : matchBlockAt s p with
      | none =>
        rw [hblk] at h
        exact absurd h (List.not_mem_nil _)
      | some blk =>
        rw [hblk] at h
        dsimp only at h
        rcases List.mem_cons.mp h with rfl | hmem
        · rw [(matchBlockAt_bounds hblk).1]
          exact hblk
        · exact ih blk.matchEnd b hmem

/-- C3 (amended): multiple SELECT statements are processed as
non-overlapping blocks in text order; a SELECT with no `FROM <table>`
match anywhere at or after its projection list yields no block starting
at that SELECT; but a SELECT fragment without its own FROM is not
skipped when a FROM occurs later in the text — the lazy projection
segment may span across subsequent SELECT keywords, so
`"SELECT a. SELECT b FROM VBUK."` yields exactly one block, which starts
at the first SELECT (offset 0) and ends at the end of text (offset 29). -/
theorem select_blocks_nonoverlap_amended :
    ((findBlocks (("SELECT a. SELECT b FROM VBUK.").data)).map
        (fun b => (b.start, b.matchEnd)) = [(0, 29)]) ∧
    (∀ s : List Char, (findBlocks s).Pairwise (fun a b => a.matchEnd ≤ b.start)) ∧
    (∀ (s : List Char) (p : Nat), hasFromTable s (p + 7) = false →
      (findBlocks s).all (fun b => decide (b.start ≠ p)) = true) := by
  refine ⟨by decide, fun s => findBlocksFrom_pairwise s (s.length + 1) 0, ?_⟩
  intro s p hno
  rw [List.all_eq_true]
  intro b hb
  rw [decide_eq_true_eq]
  intro hstart
  have hm := findBlocksFrom_mem_match s (s.length + 1) 0 b hb
  rw [hstart] at hm
  rw [matchBlockAt_none_of_no_from (hasFromTable_false_from hno)] at hm
  exact Option.noConfusion hm

/-- Witness for C3's amended claim at
`"SELECT x FROM VBUK. SELECT y z."`: the second SELECT (offset 20) has no
`FROM <table>` after it, and indeed the single block found starts at
offset 0, not 20. -/
theorem select_blocks_nonoverlap_amended_witness :
    (hasFromTable (("SELECT x FROM VBUK. SELECT y z.").data) (20 + 7) = false) ∧
    ((findBlocks (("SELECT x FROM VBUK. SELECT y z.").data)).all
      (fun b => decide (b.start ≠ 20)) = true) :=
  ⟨by decide,
    select_blocks_nonoverlap_amended.2.2 (("SELECT x FROM VBUK. SELECT y z.").data) 20
      (by decide)⟩

/-- Every hit of the main-table check is a `TABLE` hit. -/
theorem mainTableHits_table_type {s : List Char} {b : SelectBlock} {hit : RawHit}
    (h : hit ∈ mainTableHits s b) : hit.target_type = "TABLE" := by
  simp only [mainTableHits] at h
  split at h
  · rw [List.mem_singleton.mp h]
  · exact absurd h (List.not_mem_nil _)

/-- Every hit of the JOIN-table check is a `TABLE` hit. -/
theorem joinTableHits_table_type {s : List Char} {b : SelectBlock} {hit : RawHit}
    (h : hit ∈ joinTableHits s b) : hit.target_type = "TABLE" := by
  simp only [joinTableHits] at h
  rcases List.mem_flatMap.mp h with ⟨jm, hjm, hmem⟩
  split at hmem
  · rw [List.mem_singleton.mp hmem]
  · exact absurd hmem (List.not_mem_nil _)

/-- C4: for every SELECT block, the SQL scanner emits exactly one
`SQL_FIELD` hit for the block if the token `VBTYP_EXT` occurs anywhere in
the block text (case-insensitively, at word boundaries) — regardless of
how many occurrences there are — spanning the whole block, with
`field = target_name = VBTYP_EXT` and no suggested replacement; and no
`SQL_FIELD` hit otherwise. -/
theorem sql_field_once_per_block (s : List Char) (b : SelectBlock)
    (_hb : b ∈ findBlocks s) :
    (blockHits s b).filter (fun hit => hit.target_type == "SQL_FIELD") =
      (if containsVBTYP_EXT (slice s b.start b.matchEnd) then
        [{ target_type := "SQL_FIELD", target_name := "VBTYP_EXT",
           field := some ("VBTYP_EXT"), span := (b.start, b.matchEnd),
           used_fields := ["VBTYP_EXT"], suggested_fields := none,
           suggested_statement := some (comment_sql_field ("VBTYP_EXT")) }]
      else []) := by
  have hmain : (mainTableHits s b).filter (fun hit => hit.target_type == "SQL_FIELD") = [] :=
    List.filter_eq_nil_iff.mpr (fun a ha => by
      rw [mainTableHits_table_type ha]
      decide)
  have hjoin : (joinTableHits s b).filter (fun hit => hit.target_type == "SQL_FIELD") = [] :=
    List.filter_eq_nil_iff.mpr (fun a ha => by
      rw [joinTableHits_table_type ha]
      decide)
  rw [blockHits, List.filter_append, List.filter_append, hmain, hjoin]
  rw [List.nil_append, List.nil_append, sqlFieldHits]
  split
  · simp
  · rfl

/-- Witness for C4 at a block whose text holds three occurrences of the
token `vbtyp_ext`. -/
theorem sql_field_once_per_block_witness :
    ((⟨0, 22, 25, 53⟩ : SelectBlock) ∈
      findBlocks (("SELECT vbtyp_ext FROM tab WHERE vbtyp_ext > vbtyp_ext").data)) ∧
    ((blockHits (("SELECT vbtyp_ext FROM tab WHERE vbtyp_ext > vbtyp_ext").data)
        (⟨0, 22, 25, 53⟩ : SelectBlock)).filter
          (fun hit => hit.target_type == "SQL_FIELD") =
      (if containsVBTYP_EXT
          (slice (("SELECT vbtyp_ext FROM tab WHERE vbtyp_ext > vbtyp_ext").data) 0 53) then
        [{ target_type := "SQL_FIELD", target_name := "VBTYP_EXT",
           field := some ("VBTYP_EXT"), span := (0, 53),
           used_fields := ["VBTYP_EXT"], suggested_fields := none,
           suggested_statement := some (comment_sql_field ("VBTYP_EXT")) }]
      else [])) :=
  ⟨by decide, sql_field_once_per_block _ _ (by decide)⟩

/-- The `seen`-set loop of `assess` is the first-occurrence-wins
deduplication: relative to any starting `seen` set it maps, in order,
exactly those hits whose key is new. -/
theorem dedupLoop_eq_keepFirst (l : List RawHit) (seen : List (String × String × Nat × Nat)) :
    dedupLoop l seen =
      (keepFirstOccurrences (l.filter (fun h => decide (keyOf h ∉ seen)))).map toFinding := by
  induction l generalizing seen with
  | nil => simp [dedupLoop, keepFirstOccurrences]
  | cons h t ih =>
    by_cases hk : keyOf h ∈ seen
    · rw [show dedupLoop (h :: t) seen = dedupLoop t seen from by
          simp [dedupLoop, hk]]
      rw [show (h :: t).filter (fun h2 => decide (keyOf h2 ∉ seen)) =
            t.filter (fun h2 => decide (keyOf h2 ∉ seen)) from by
          simp [List.filter_cons, hk]]
      exact ih seen
    · rw [show dedupLoop (h :: t) seen = toFinding h :: dedupLoop t (keyOf h :: seen) from by
          simp [dedupLoop, hk]]
      rw [show (h :: t).filter (fun h2 => decide (keyOf h2 ∉ seen)) =
            h :: t.filter (fun h2 => decide (keyOf h2 ∉ seen)) from by
          simp [List.filter_cons, hk]]
      simp only [keepFirstOccurrences]
      rw [List.map_cons, List.filter_filter, ih (keyOf h :: seen)]
      have hpred :
          (fun x : RawHit => decide (keyOf x ∉ keyOf h :: seen)) =
            (fun x : RawHit => decide (keyOf x ≠ keyOf h) && decide (keyOf x ∉ seen)) := by
        funext x
        by_cases h1 : keyOf x = keyOf h <;> by_cases h2 : keyOf x ∈ seen <;>
          simp [h1, h2]
      rw [hpred]

/-- C6: for every unit, the finding list equals the concatenation of the
SQL scanner's hits followed by the declaration scanner's hits, with every
later hit whose composite key `(target_kind, target_name, span)` repeats
the key of an earlier hit dropped (first occurrence in scan order wins),
mapped to the public finding shape, and with no other reordering. -/
theorem dedup_first_occurrence_wins (u : Unit) :
    assessUnit u =
      (keepFirstOccurrences
        (scan_sql (u.code.getD "") ++ scan_declarations (u.code.getD ""))).map toFinding := by
  have h := dedupLoop_eq_keepFirst
    (scan_sql (u.code.getD "") ++ scan_declarations (u.code.getD "")) []
  have hfilter :
      (scan_sql (u.code.getD "") ++ scan_declarations (u.code.getD "")).filter
        (fun h => decide (keyOf h ∉ ([] : List (String × String × Nat × Nat)))) =
      scan_sql (u.code.getD "") ++ scan_declarations (u.code.getD "") := by
    simp
  rw [assessUnit]
  rw [h, hfilter]

/-- C9: scanning is deterministic — submitting the same unit twice
produces two identical finding lists, equal element by element. -/
theorem scanning_deterministic (u : Unit) :
    assess [u, u] = [{ unit := u, selects := assessUnit u },
                     { unit := u, selects := assessUnit u }] ∧
    assessUnit u = assessUnit u :=
  ⟨rfl, rfl⟩

/-- C7: the output sequence of `assess` has exactly the length of the
input sequence, and its `i`-th record is built from the `i`-th input unit
(that unit's fields plus its finding list), for every index `i`. -/
theorem assess_positional (units : List Unit) :
    (assess units).length = units.length ∧
    ∀ i : Nat, (assess units)[i]? =
      (units[i]?).map (fun u => AssessedUnit.mk u (assessUnit u)) := by
  refine ⟨by simp [assess], fun i => ?_⟩
  simp [assess]

/-- A successful lookup in the obsolete-tables catalog names one of its
two entries. -/
theorem lookup_SQL_TABLES {t rep : String} (h : SQL_TABLES.lookup t = some rep) :
    (t = "VBUK" ∧ rep = "VBAK") ∨ (t = "VBUP" ∧ rep = "VBAP") := by
  simp only [SQL_TABLES, List.lookup] at h
  cases h1 : (t == ("VBUK" : String)) with
  | true =>
    rw [h1] at h
    dsimp only at h
    injection h with h3
    exact Or.inl ⟨eq_of_beq h1, h3.symm⟩
  | false =>
    rw [h1] at h
    dsimp only at h
    cases h2 : (t == ("VBUP" : String)) with
    | true =>
      rw [h2] at h
      dsimp only at h
      injection h with h3
      exact Or.inr ⟨eq_of_beq h2, h3.symm⟩
    | false =>
      rw [h2] at h
      dsimp only at h
      exact Option.noConfusion h

/-- A successful lookup in the renamed-declaration-fields catalog names
its single entry. -/
theorem lookup_DECL_FIELDS {t rep : String} (h : DECL_FIELDS.lookup t = some rep) :
    t = "VBTYP" ∧ rep = "VBTYPL" := by
  simp only [DECL_FIELDS, List.lookup] at h
  cases h1 : (t == ("VBTYP" : String)) with
  | true =>
    rw [h1] at h
    dsimp only at h
    injection h with h3
    exact ⟨eq_of_beq h1, h3.symm⟩
  | false =>
    rw [h1] at h
    dsimp only at h
    exact Option.noConfusion h

/-- Membership in the obsolete-declaration-fields set names its single
entry. -/
theorem contains_DECL_FIELDS_OBS {t : String} (h : DECL_FIELDS_OBS.contains t = true) :
    t = "VBTYP_EXT" := by
  simpa [DECL_FIELDS_OBS] using h

/-- Shape of every hit the SQL scanner emits: a `TABLE` hit produced only
after a successful catalog lookup (with the matching one-element
suggestion list and a synthesized comment), or the fixed `SQL_FIELD` hit. -/
theorem scan_sql_hit_shape {code : String} {hit : RawHit} (h : hit ∈ scan_sql code) :
    (hit.target_type = "TABLE" ∧ hit.field = none ∧
      (hit.target_name = "VBUK" ∨ hit.target_name = "VBUP") ∧
      (∃ rep, SQL_TABLES.lookup hit.target_name = some rep ∧
        hit.suggested_fields = some [rep]) ∧
      hit.suggested_statement.isSome = true)
    ∨ (hit.target_type = "SQL_FIELD" ∧ hit.target_name = "VBTYP_EXT" ∧
       hit.field = some hit.target_name ∧ hit.suggested_fields = none ∧
       hit.suggested_statement.isSome = true) := by
  simp only [scan_sql] at h
  rcases List.mem_flatMap.mp h with ⟨b, hbmem, hbh⟩
  simp only [blockHits] at hbh
  rcases List.mem_append.mp hbh with hmj | hf
  case inr =>
    right
    simp only [sqlFieldHits] at hf
    by_cases hc : containsVBTYP_EXT (slice code.data b.start b.matchEnd) = true
    · rw [if_pos hc] at hf
      rw [List.mem_singleton.mp hf]
      exact ⟨rfl, rfl, rfl, rfl, rfl⟩
    · rw [if_neg hc] at hf
      exact absurd hf (List.not_mem_nil _)
  rcases List.mem_append.mp hmj with hm | hj
  · left
    simp only [mainTableHits] at hm
    cases hlk : SQL_TABLES.lookup (upper (slice code.data b.tableStart b.tableEnd)) with
    | none =>
      rw [hlk] at hm
      exact absurd hm (List.not_mem_nil _)
    | some rep =>
      rw [hlk] at hm
      dsimp only at hm
      rw [List.mem_singleton.mp hm]
      refine ⟨rfl, rfl, ?_, ⟨rep, hlk, rfl⟩, ?_⟩
      · rcases lookup_SQL_TABLES hlk with ⟨ht, _⟩ | ⟨ht, _⟩
        · exact Or.inl ht
        · exact Or.inr ht
      · simp [comment_table, hlk]
  · left
    simp only [joinTableHits] at hj
    rcases List.mem_flatMap.mp hj with ⟨jm, _, hm2⟩
    cases hlk : SQL_TABLES.lookup
        (upper (slice (slice code.data b.tableEnd b.matchEnd) jm.2.1 jm.2.2)) with
    | none =>
      rw [hlk] at hm2
      exact absurd hm2 (List.not_mem_nil _)
    | some rep =>
      rw [hlk] at hm2
      dsimp only at hm2
      rw [List.mem_singleton.mp hm2]
      refine ⟨rfl, rfl, ?_, ⟨rep, hlk, rfl⟩, ?_⟩
      · rcases lookup_SQL_TABLES hlk with ⟨ht, _⟩ | ⟨ht, _⟩
        · exact Or.inl ht
        · exact Or.inr ht
      · simp [comment_table, hlk]

/-- Shape of every hit the declaration scanner emits: a `DECLARATION` hit
for one of the two catalogued declaration fields, with the field attribute
mirroring the target name and a synthesized comment. -/
theorem scan_declarations_hit_shape {code : String} {hit : RawHit}
    (h : hit ∈ scan_declarations code) :
    hit.target_type = "DECLARATION" ∧ hit.field = some hit.target_name ∧
    (hit.target_name = "VBTYP" ∨ hit.target_name = "VBTYP_EXT") ∧
    hit.suggested_statement.isSome = true := by
  simp only [scan_declarations] at h
  rcases List.mem_flatMap.mp h with ⟨m, _, hmem⟩
  by_cases hg : ((DECL_FIELDS.lookup (upper (slice code.data m.2.1 m.2.2))).isSome
      || DECL_FIELDS_OBS.contains (upper (slice code.data m.2.1 m.2.2))) = true
  · rw [if_pos hg] at hmem
    rw [List.mem_singleton.mp hmem]
    refine ⟨rfl, rfl, ?_, rfl⟩
    rcases Bool.or_eq_true_iff.mp hg with hl | hc
    · left
      cases hlk : DECL_FIELDS.lookup (upper (slice code.data m.2.1 m.2.2)) with
      | none =>
        rw [hlk] at hl
        exact absurd hl (by decide)
      | some rep => exact (lookup_DECL_FIELDS hlk).1
    · right
      exact contains_DECL_FIELDS_OBS hc
  · rw [if_neg hg] at hmem
    exact absurd hmem (List.not_mem_nil _)

/-- Every finding the dedup loop emits is the image of one of its input
hits. -/
theorem mem_dedupLoop {f : Finding} :
    ∀ {l : List RawHit} {seen}, f ∈ dedupLoop l seen →
      ∃ hit, hit ∈ l ∧ f = toFinding hit := by
  intro l
  induction l with
  | nil =>
    intro seen h
    simp [dedupLoop] at h
  | cons hd t ih =>
    intro seen hf
    simp only [dedupLoop] at hf
    by_cases hk : keyOf hd ∈ seen
    · rw [if_pos hk] at hf
      obtain ⟨hit, hm, he⟩ := ih hf
      exact ⟨hit, List.mem_cons_of_mem _ hm, he⟩
    · rw [if_neg hk] at hf
      rcases List.mem_cons.mp hf with he | hf2
      · exact ⟨hd, List.mem_cons_self _ _, he⟩
      · obtain ⟨hit, hm, he⟩ := ih hf2
        exact ⟨hit, List.mem_cons_of_mem _ hm, he⟩

/-- Every finding in an `assess` output record comes from a raw hit of one
of the two scanners run on that record's unit. -/
theorem mem_assess_finding {units : List Unit} {r : AssessedUnit} {f : Finding}
    (hr : r ∈ assess units) (hf : f ∈ r.selects) :
    ∃ hit, (hit ∈ scan_sql (r.unit.code.getD "") ∨
            hit ∈ scan_declarations (r.unit.code.getD "")) ∧
      f = toFinding hit := by
  rcases List.mem_map.mp hr with ⟨u, _, rfl⟩
  simp only [assessUnit] at hf
  obtain ⟨hit, hm, he⟩ := mem_dedupLoop hf
  rcases List.mem_append.mp hm with h1 | h2
  · exact ⟨hit, Or.inl h1, he⟩
  · exact ⟨hit, Or.inr h2, he⟩

/-- C8: every finding reachable from the public entry point carries a
synthesized comment (`none` would mark the modelled `KeyError` of
`comment_table`), and every `TABLE` finding's name is a key of
`SQL_TABLES` — so the table-comment synthesizer is only ever invoked
after a successful catalog hit and its failing lookup is unreachable for
any external input. -/
theorem table_comment_lookup_safe (units : List Unit) (r : AssessedUnit) (f : Finding)
    (hr : r ∈ assess units) (hf : f ∈ r.selects) :
    f.suggested_statement.isSome = true ∧
    (f.target_type = "TABLE" → (SQL_TABLES.lookup f.target_name).isSome = true) := by
  obtain ⟨hit, hor, rfl⟩ := mem_assess_finding hr hf
  rcases hor with hs | hd
  · rcases scan_sql_hit_shape hs with ⟨_, _, _, ⟨rep, hlk, _⟩, hstmt⟩ | ⟨ht, _, _, _, hstmt⟩
    · refine ⟨hstmt, fun _ => ?_⟩
      show (SQL_TABLES.lookup hit.target_name).isSome = true
      rw [hlk]
      rfl
    · refine ⟨hstmt, fun hTT => ?_⟩
      rw [show (toFinding hit).target_type = hit.target_type from rfl, ht] at hTT
      exact absurd hTT (by decide)
  · obtain ⟨ht, _, _, hstmt⟩ := scan_declarations_hit_shape hd
    refine ⟨hstmt, fun hTT => ?_⟩
    rw [show (toFinding hit).target_type = hit.target_type from rfl, ht] at hTT
    exact absurd hTT (by decide)

/-- Witness for C8 at a one-unit batch whose single finding is the `VBUK`
table finding. -/
theorem table_comment_lookup_safe_witness :
    (exampleRecordVBUK ∈ assess [exampleUnitVBUK]) ∧
    (exampleFindingVBUK ∈ exampleRecordVBUK.selects) ∧
    (exampleFindingVBUK.suggested_statement.isSome = true ∧
      (exampleFindingVBUK.target_type = "TABLE" →
        (SQL_TABLES.lookup exampleFindingVBUK.target_name).isSome = true)) :=
  ⟨by decide, by decide,
    table_comment_lookup_safe [exampleUnitVBUK] exampleRecordVBUK exampleFindingVBUK
      (by decide) (by decide)⟩

/-- C10: every emitted finding has its field attribute equal to its
target name for `SQL_FIELD` and `DECLARATION` kinds; a `TABLE` finding
has no field attribute, a derived table attribute equal to its target
name, and a one-element suggested replacement list; every finding has
`ambiguous = false` and a fully upper-cased target name. -/
theorem finding_invariants (units : List Unit) (r : AssessedUnit) (f : Finding)
    (hr : r ∈ assess units) (hf : f ∈ r.selects) :
    ((f.target_type = "SQL_FIELD" ∨ f.target_type = "DECLARATION") →
      f.field = some f.target_name) ∧
    (f.target_type = "TABLE" →
      f.field = none ∧ f.table = some f.target_name ∧
      ∃ x, f.suggested_fields = some [x]) ∧
    f.ambiguous = false ∧
    f.target_name.data.map Char.toUpper = f.target_name.data := by
  obtain ⟨hit, hor, rfl⟩ := mem_assess_finding hr hf
  rcases hor with hs | hd
  · rcases scan_sql_hit_shape hs with
      ⟨ht, hfield, hnames, ⟨rep, _, hsf⟩, _⟩ | ⟨ht, hn, hfield, _, _⟩
    · refine ⟨?_, ?_, rfl, ?_⟩
      · intro hcase
        rcases hcase with hc | hc <;>
          · rw [show (toFinding hit).target_type = hit.target_type from rfl, ht] at hc
            exact absurd hc (by decide)
      · intro _
        refine ⟨hfield, ?_, ⟨rep, hsf⟩⟩
        show (if hit.target_type == "TABLE" then some hit.target_name else none) =
          some hit.target_name
        rw [ht]
        rfl
      · show hit.target_name.data.map Char.toUpper = hit.target_name.data
        rcases hnames with hn | hn <;>
          · rw [hn]
            decide
    · refine ⟨fun _ => hfield, ?_, rfl, ?_⟩
      · intro hTT
        rw [show (toFinding hit).target_type = hit.target_type from rfl, ht] at hTT
        exact absurd hTT (by decide)
      · show hit.target_name.data.map Char.toUpper = hit.target_name.data
        rw [hn]
        decide
  · obtain ⟨ht, hfield, hnames, _⟩ := scan_declarations_hit_shape hd
    refine ⟨fun _ => hfield, ?_, rfl, ?_⟩
    · intro hTT
      rw [show (toFinding hit).target_type = hit.target_type from rfl, ht] at hTT
      exact absurd hTT (by decide)
    · show hit.target_name.data.map Char.toUpper = hit.target_name.data
      rcases hnames with hn | hn <;>
        · rw [hn]
          decide

/-- Witness for C10 at a one-unit batch whose single finding is the
`VBUP` table finding. -/
theorem finding_invariants_witness :
    (exampleRecordVBUP ∈ assess [exampleUnitVBUP]) ∧
    (exampleFindingVBUP ∈ exampleRecordVBUP.selects) ∧
    (((exampleFindingVBUP.target_type = "SQL_FIELD" ∨
        exampleFindingVBUP.target_type = "DECLARATION") →
      exampleFindingVBUP.field = some exampleFindingVBUP.target_name) ∧
    (exampleFindingVBUP.target_type = "TABLE" →
      exampleFindingVBUP.field = none ∧
      exampleFindingVBUP.table = some exampleFindingVBUP.target_name ∧
      ∃ x, exampleFindingVBUP.suggested_fields = some [x]) ∧
    exampleFindingVBUP.ambiguous = false ∧
    exampleFindingVBUP.target_name.data.map Char.toUpper =
      exampleFindingVBUP.target_name.data) :=
  ⟨by decide, by decide,
    finding_invariants [exampleUnitVBUP] exampleRecordVBUP exampleFindingVBUP
      (by decide) (by decide)⟩

end App
